import Mathlib

/-!
Shallow embedding of `src/src/package.rs` (crate `mocha-milk`): the `Package`
data model, the manifest loader `Package::from_path`, and the install pipeline
`Package::install` (source sync, build.zig generation, the two build-tool
invocations, artifact installation).

External effects are modelled explicitly:
* process spawns, directory creation, file writes and the artifact file
  operations are recorded as a trace of `Event`s, in the order the Rust code
  performs them;
* spawn/wait results, the `source_dir.exists()` test, directory-creation and
  build-file-write success, and the filesystem contents seen by the artifact
  loop are supplied by a `World` record (the environment oracle);
* the artifact loop itself is interpreted against an association-list
  filesystem `Fs`, with POSIX-style semantics for `remove_file`, `copy`
  and `symlink` on the cases the code exercises.

Console output (`print!`, `artifact_log`) and elapsed-time measurement are
not modelled: the spec excludes cosmetic console styling from the core.
-/

set_option autoImplicit false

namespace Mocha

/-- `enum Artifact` (declared in the crate next to `package.rs`; shape taken
from its uses in `Package::install`): a produced binary with an optional
rename, or a symbolic link with a literal target text. -/
inductive Artifact where
  | bin (name : String) (rename_to : Option String)
  | sym (name : String) (points_to : String)
deriving DecidableEq, Repr

/-- `struct Serialized` from `package.rs`: the deserialized manifest body.
`features` and `beta_artifacts` carry `#[serde(default)]`. -/
structure Serialized where
  source : String
  dependencies : List String
  features : List String
  artifacts : List Artifact
  beta_artifacts : List (String × List String)
deriving DecidableEq, Repr

/-- `struct Package` from `package.rs`: a name (the manifest file stem)
plus the deserialized manifest. -/
structure Package where
  name : String
  serialized : Serialized
deriving DecidableEq, Repr

/-- `root_dir.join("src").join(self.name())`: camino `join` inserts `/`. -/
def Package.sourceDir (p : Package) : String :=
  "/mocha/src/" ++ p.name

/-- `source_dir.join("target/x86_64-unknown-linux-musl/release")`. -/
def Package.targetDir (p : Package) : String :=
  p.sourceDir ++ "/target/x86_64-unknown-linux-musl/release"

/-- `root_dir.join("bin")`. -/
def binaryDir : String :=
  "/mocha/bin"

/-- A filesystem entry: a regular file with content, or a symbolic link
whose stored target text is kept verbatim. -/
inductive Entry where
  | file (content : String)
  | symlinkTo (target : String)
deriving DecidableEq, Repr

/-- The filesystem seen by the artifact-installation loop: an association
list from absolute paths to entries. -/
abbrev Fs := List (String × Entry)

def fsLookup : Fs → String → Option Entry
  | [], _ => none
  | (q, e) :: rest, pa => if q = pa then some e else fsLookup rest pa

def fsErase : Fs → String → Fs
  | [], _ => []
  | (q, e) :: rest, pa => if q = pa then fsErase rest pa else (q, e) :: fsErase rest pa

def fsInsert (fs : Fs) (pa : String) (e : Entry) : Fs :=
  (pa, e) :: fsErase fs pa

/-- I/O error kinds, one per failing call site of `Package::install`.
There is deliberately no process-exit-status error: the Rust code never
inspects `ExitStatus` (see claim C7). -/
inductive IoErr where
  | notFound
  | alreadyExists
  | spawnWait
  | createDirFail
  | writeFail
deriving DecidableEq, Repr

/-- One observable side effect of `Package::install`, in program order. -/
inductive Event where
  | createDir (path : String)
  | run (tool : String) (args : List String) (cwd : String)
  | writeFile (path : String) (content : String)
  | removeFile (path : String)
  | copyFile (src : String) (dst : String)
  | symlink (target : String) (linkPath : String)
deriving DecidableEq, Repr

/-- Environment oracle for one `install` run: the `source_dir.exists()`
answer, whether `fs::create_dir` succeeds, the result of each
`spawn()?.wait()?` pair in call order (`none` = spawn or wait I/O error,
`some code` = the child's exit code, which the Rust code discards),
whether opening/writing `build.zig` succeeds, and the filesystem state
the artifact loop starts from. -/
structure World where
  sourceDirExists : Bool
  createDirOk : Bool
  procs : List (Option Int)
  writeOk : Bool
  fs : Fs
deriving DecidableEq, Repr

/-- `spawn()?.wait()?` for the `i`-th spawned process: true iff neither
spawn nor wait returned an I/O error.  The exit status inside `some _`
is never read anywhere in the pipeline. -/
def procOk (w : World) (i : Nat) : Bool :=
  (w.procs.getD i none).isSome

/-- `strip_prefix` on character lists. -/
def dropPreChars : List Char → List Char → Option (List Char)
  | [], s => some s
  | _ :: _, [] => none
  | c :: cs, d :: ds => if c = d then dropPreChars cs ds else none

/-- `str::strip_prefix`: `some` of the remainder when `pre` is a prefix. -/
def dropPre (pre s : String) : Option String :=
  (dropPreChars pre.data s.data).map (fun cs => ⟨cs⟩)

/-- The fixed preamble of the generated `build.zig`: the first six
`writeln!` calls of the build-script section of `Package::install`. -/
def zigHeader : String :=
  "const std = @import(\"std\");\n" ++
  "\n" ++
  "pub fn build(b: *std.Build) void \x7b\n" ++
  "    const optimize = b.standardOptimizeOption(.\x7b\x7d);\n" ++
  "    const target = b.standardTargetOptions(.\x7b\x7d);\n" ++
  "\n"

/-- Concatenation of a list of strings. -/
def strConcat : List String → String
  | [] => ""
  | s :: rest => s ++ strConcat rest

/-- The per-entry `sources` string: each source quoted, then joined with
`",\n        "` (`format!("\"{source}\"")` + `join`). -/
def quoteJoin (ss : List String) : String :=
  String.intercalate ",\n        " (ss.map (fun s => "\"" ++ s ++ "\""))

def linesJoin (ls : List String) : String :=
  strConcat (ls.map (fun l => l ++ "\n"))

/-- The `writeln!` lines emitted for a `beta_artifacts` entry whose label
has the form `"lib " ++ a`, with `q` the already quoted-and-joined
sources string. -/
def libChunkLines (a q : String) : List String :=
  [ "    const lib" ++ a ++ " = b.addStaticLibrary(.\x7b",
    "        .link_libc = true,",
    "        .name = \"" ++ a ++ "\",",
    "        .optimize = optimize,",
    "        .target = target,",
    "    \x7d);",
    "",
    "    lib" ++ a ++ ".addCSourceFiles(&.\x7b",
    "        " ++ q,
    "        \x7d,",
    "        &[_][]const u8\x7b\x7d,",
    "    );",
    "    lib" ++ a ++ ".addIncludePath(\"lib\");",
    "    lib" ++ a ++ ".addIncludePath(\"lib/common\");",
    "",
    "    b.installArtifact(lib" ++ a ++ ");",
    "" ]

/-- The `writeln!` lines emitted for a `beta_artifacts` entry whose label
has the form `"bin " ++ a`. -/
def binChunkLines (a q : String) : List String :=
  [ "    const " ++ a ++ " = b.addExecutable(.\x7b",
    "        .link_libc = true,",
    "        .name = \"" ++ a ++ "\",",
    "        .optimize = optimize,",
    "        .target = target,",
    "    \x7d);",
    "",
    "    " ++ a ++ ".addCSourceFiles(&.\x7b",
    "        " ++ q,
    "        \x7d,",
    "        &[_][]const u8\x7b\x7d,",
    "    );",
    "    " ++ a ++ ".addIncludePath(\"lib\");",
    "    " ++ a ++ ".addIncludePath(\"lib/common\");",
    "    " ++ a ++ ".addObjectFile(\"zig-out/lib/libzstd.a\");",
    "",
    "    b.installArtifact(" ++ a ++ ");",
    "" ]

def libChunk (a q : String) : String :=
  linesJoin (libChunkLines a q)

def binChunk (a q : String) : String :=
  linesJoin (binChunkLines a q)

/-- The text one `beta_artifacts` entry contributes: the loop body of the
build-script section (two independent `if let Some(..) = strip_prefix`
blocks, each appending its lines to the file). -/
def chunkOf (e : String × List String) : String :=
  (match dropPre "lib " e.1 with
    | some a => libChunk a (quoteJoin e.2)
    | none => "") ++
  (match dropPre "bin " e.1 with
    | some a => binChunk a (quoteJoin e.2)
    | none => "")

/-- The full generated `build.zig` text: preamble, then the entries in
input order, then the closing `}` line. -/
def buildZig (es : List (String × List String)) : String :=
  (es.foldl (fun acc e => acc ++ chunkOf e) zigHeader) ++ "\x7d\n"

/-- The `gix fetch --depth 1` invocation (existing checkout). -/
def fetchEvent (p : Package) : Event :=
  Event.run "gix" ["fetch", "--depth", "1"] p.sourceDir

/-- The `gix clone --depth 1 --no-tags <source> .` invocation (fresh checkout). -/
def cloneEvent (p : Package) : Event :=
  Event.run "gix" ["clone", "--depth", "1", "--no-tags", p.serialized.source, "."] p.sourceDir

/-- Writing the generated `build.zig` into the source directory
(`File::options().write(true).create(true).truncate(true)` + the
`writeln!` sequence). -/
def buildWriteEvent (p : Package) : Event :=
  Event.writeFile (p.sourceDir ++ "/build.zig") (buildZig p.serialized.beta_artifacts)

/-- The secondary build: `zig build -Doptimize=ReleaseFast
-Dtarget=x86_64-linux-musl`, cwd = source directory. -/
def zigRunEvent (p : Package) : Event :=
  Event.run "zig" ["build", "-Doptimize=ReleaseFast", "-Dtarget=x86_64-linux-musl"] p.sourceDir

/-- The primary build: `cargo +nightly zigbuild --features=<joined>
--no-default-features --target=x86_64-unknown-linux-musl --release`,
cwd = source directory; `features().join(",")` is comma intercalation. -/
def cargoRunEvent (p : Package) : Event :=
  Event.run "cargo"
    ["+nightly", "zigbuild",
     "--features=" ++ String.intercalate "," p.serialized.features,
     "--no-default-features",
     "--target=x86_64-unknown-linux-musl",
     "--release"] p.sourceDir

/-- One iteration of the artifact loop of `Package::install`.
`Bin`: best-effort `remove_file` on the destination (its result is bound
to `_`, so a failure is ignored), then `fs::copy` from the fixed primary
build output path — the copy fails iff no regular file is at the source.
`Sym`: best-effort `remove_file`, then `unix::fs::symlink(points_to, dst)`,
which stores the target text verbatim and fails only if the destination
still exists. -/
def installArtifact1 (bd td : String) (fs : Fs) : Artifact → List Event × Except IoErr Fs
  | Artifact.bin nm rn =>
    let srcPath := td ++ "/" ++ nm
    let dstPath := bd ++ "/" ++ rn.getD nm
    let fs1 := fsErase fs dstPath
    let evs := [Event.removeFile dstPath, Event.copyFile srcPath dstPath]
    match fsLookup fs1 srcPath with
    | some (Entry.file c) => (evs, Except.ok (fsInsert fs1 dstPath (Entry.file c)))
    | _ => (evs, Except.error IoErr.notFound)
  | Artifact.sym nm pt =>
    let dstPath := bd ++ "/" ++ nm
    let fs1 := fsErase fs dstPath
    let evs := [Event.removeFile dstPath, Event.symlink pt dstPath]
    if (fsLookup fs1 dstPath).isSome then (evs, Except.error IoErr.alreadyExists)
    else (evs, Except.ok (fsInsert fs1 dstPath (Entry.symlinkTo pt)))

/-- The artifact loop: each iteration uses `?`, so the first error returns
from `install` immediately and the remaining artifacts are not attempted. -/
def installArtifacts (bd td : String) (fs : Fs) : List Artifact → List Event × Except IoErr Fs
  | [] => ([], Except.ok fs)
  | a :: rest =>
    let step := installArtifact1 bd td fs a
    match step.2 with
    | Except.error e => (step.1, Except.error e)
    | Except.ok fs1 =>
      let next := installArtifacts bd td fs1 rest
      (step.1 ++ next.1, next.2)

/-- `Package::install` after the sync phase, carrying the events already
recorded: the `spawn()?.wait()?` of the sync process, the `build.zig`
write, the `zig build` invocation, the `cargo` invocation, then the
artifact loop; each `?` aborts with the corresponding I/O error. -/
def instAfterSync (p : Package) (w : World) (evs : List Event) : List Event × Except IoErr Fs :=
  if procOk w 0 then
    let evs1 := evs ++ [buildWriteEvent p]
    if w.writeOk then
      let evs2 := evs1 ++ [zigRunEvent p]
      if procOk w 1 then
        let evs3 := evs2 ++ [cargoRunEvent p]
        if procOk w 2 then
          let r := installArtifacts binaryDir p.targetDir w.fs p.serialized.artifacts
          (evs3 ++ r.1, r.2)
        else (evs3, Except.error IoErr.spawnWait)
      else (evs2, Except.error IoErr.spawnWait)
    else (evs1, Except.error IoErr.writeFail)
  else (evs, Except.error IoErr.spawnWait)

/-- `Package::install`: branch on `source_dir.exists()`; an existing
checkout gets `gix fetch --depth 1`, otherwise `fs::create_dir(..)?`
followed by `gix clone --depth 1 --no-tags <source> .`; both with the
source directory as working directory.  Then the shared tail. -/
def Package.install (p : Package) (w : World) : List Event × Except IoErr Fs :=
  if w.sourceDirExists then
    instAfterSync p w [fetchEvent p]
  else if w.createDirOk then
    instAfterSync p w [Event.createDir p.sourceDir, cloneEvent p]
  else
    ([Event.createDir p.sourceDir], Except.error IoErr.createDirFail)

/-- Classification of the artifact-loop events. -/
def Event.isFileOp : Event → Bool
  | Event.removeFile _ => true
  | Event.copyFile _ _ => true
  | Event.symlink _ _ => true
  | _ => false

/-- The events of the sync phase as a function of the `exists()` answer
(the failing-`create_dir` branch is handled separately). -/
def syncEvents (p : Package) (w : World) : List Event :=
  if w.sourceDirExists then [fetchEvent p]
  else [Event.createDir p.sourceDir, cloneEvent p]

/-- Pointwise replacement of the exit codes in a spawn-result list:
spawn/wait failures (`none`) are kept, successful exits get their code
replaced. -/
def overrideCodes : List (Option Int) → List Int → List (Option Int)
  | [], _ => []
  | os, [] => os
  | o :: os, c :: cs => (o.map (fun _ => c)) :: overrideCodes os cs

/-! ## The manifest loader `Package::from_path` -/

/-- A parsed YAML manifest document, field-presence explicit.  This models
the input that `serde_yaml`'s deserializer hands to the derived
`Deserialize` impl of `Serialized`. -/
structure Doc where
  source : Option String
  dependencies : Option (List String)
  features : Option (List String)
  artifacts : Option (List Artifact)
  beta_artifacts : Option (List (String × List String))
deriving DecidableEq, Repr

inductive DeErr where
  | missingField
deriving DecidableEq, Repr

/-- The derived `Deserialize` impl of `Serialized`: `source`,
`dependencies` and `artifacts` are required; `features` and
`beta_artifacts` carry `#[serde(default)]` and fall back to the empty
vector when absent. -/
def deserializeSerialized (d : Doc) : Except DeErr Serialized :=
  match d.source, d.dependencies, d.artifacts with
  | some s, some dep, some arts =>
    Except.ok ⟨s, dep, (d.features.getD []), arts, (d.beta_artifacts.getD [])⟩
  | _, _, _ => Except.error DeErr.missingField

/-- Split a character list at separator boundaries (`acc` holds the
reversed current component). -/
def splitCharAux (sep : Char) : List Char → List Char → List (List Char)
  | [], acc => [acc.reverse]
  | c :: rest, acc =>
    if c = sep then acc.reverse :: splitCharAux sep rest []
    else splitCharAux sep rest (c :: acc)

/-- Split a string at a separator character. -/
def splitChar (sep : Char) (s : String) : List String :=
  (splitCharAux sep s.data []).map (fun cs => ⟨cs⟩)

/-- Models `camino::Utf8Path::file_name`: the last `/`-separated component,
with empty and `"."` components dropped; `none` for the root, the empty
path, or a path ending in `".."`. -/
def fileNameOf (path : String) : Option String :=
  let comps := (splitCharAux '/' path.data []).filter
    (fun c => !(c.isEmpty || c == ['.']))
  match comps.getLast? with
  | none => none
  | some c => if c = ['.', '.'] then none else some ⟨c⟩

/-- The portion of a character list before its last `'.'`; `none` when it
contains no `'.'`. -/
def beforeLastDot : List Char → Option (List Char)
  | [] => none
  | c :: cs =>
    match beforeLastDot cs with
    | some r => some (c :: r)
    | none => if c = '.' then some [] else none

/-- Models `file_stem` applied to a file name: the portion before the last
`'.'`, where a leading dot does not count as an extension separator. -/
def stemOf (nm : String) : String :=
  match nm.data with
  | [] => ""
  | c :: rest => ⟨c :: ((beforeLastDot rest).getD rest)⟩

/-- `path.file_stem()`. -/
def fileStemOpt (path : String) : Option String :=
  (fileNameOf path).map stemOf

/-- Environment oracle for one `from_path` call: the result of
`fs::read_to_string` (`none` = read I/O error) and the result of the YAML
parse of whatever was read (`none` = not parseable as a YAML mapping). -/
structure LoadWorld where
  readResult : Option String
  parseResult : Option Doc
deriving DecidableEq, Repr

/-- `Error::deserialize_spec(name, content, error)` as surfaced by
`from_path`; the opaque underlying `serde_yaml` error is not modelled. -/
inductive PkgError where
  | specParse (name : String) (content : String)
deriving DecidableEq, Repr

/-- The observable outcome of `Package::from_path`: a loaded package, an
error value, or a panic (an `unwrap` on `None`/`Err` aborts the process
instead of returning). -/
inductive LoadOutcome where
  | ok (p : Package)
  | err (e : PkgError)
  | panicked
deriving DecidableEq, Repr

def isErrOutcome : LoadOutcome → Bool
  | LoadOutcome.err _ => true
  | _ => false

/-- `Package::from_path`: `path.file_stem().unwrap()` (panics when the path
has no file stem), then `fs::read_to_string(path).unwrap()` (panics on a
read I/O error), then `serde_yaml::from_str` whose failure is wrapped as
`Error::deserialize_spec(name, content, ..)` and returned as `Err`. -/
def Package.from_path (path : String) (w : LoadWorld) : LoadOutcome :=
  match fileStemOpt path with
  | none => LoadOutcome.panicked
  | some nm =>
    match w.readResult with
    | none => LoadOutcome.panicked
    | some content =>
      match w.parseResult with
      | none => LoadOutcome.err (PkgError.specParse nm content)
      | some d =>
        match deserializeSerialized d with
        | Except.error _ => LoadOutcome.err (PkgError.specParse nm content)
        | Except.ok s => LoadOutcome.ok ⟨nm, s⟩

/-! ## Helper lemmas -/

lemma strMk_data (a : String) : String.mk a.data = a := by
  cases a
  rfl

lemma fsLookup_fsErase_self (fs : Fs) (pa : String) :
    fsLookup (fsErase fs pa) pa = none := by
  induction fs with
  | nil => rfl
  | cons hd rest ih =>
    obtain ⟨q, e⟩ := hd
    by_cases h : q = pa
    · simp [fsErase, h, ih]
    · simp [fsErase, fsLookup, h, ih]

lemma fsLookup_fsErase_ne (fs : Fs) (pa q : String) (h : q ≠ pa) :
    fsLookup (fsErase fs pa) q = fsLookup fs q := by
  induction fs with
  | nil => rfl
  | cons hd rest ih =>
    obtain ⟨r, e⟩ := hd
    by_cases hr : r = pa
    · have hpq : ¬ (pa = q) := fun hh => h hh.symm
      simp [fsErase, fsLookup, hr, ih, hpq]
    · by_cases hq : r = q <;> simp [fsErase, fsLookup, hr, hq, ih, h]

lemma fsLookup_fsInsert_self (fs : Fs) (pa : String) (e : Entry) :
    fsLookup (fsInsert fs pa e) pa = some e := by
  simp [fsInsert, fsLookup]

lemma fsLookup_fsInsert_ne (fs : Fs) (pa q : String) (e : Entry) (h : q ≠ pa) :
    fsLookup (fsInsert fs pa e) q = fsLookup fs q := by
  have : ¬ pa = q := fun hq => h hq.symm
  simp [fsInsert, fsLookup, this, fsLookup_fsErase_ne fs pa q h]

lemma mochaSrc_ne_mochaBin (x y : String) :
    "/mocha/src/" ++ x ≠ "/mocha/bin/" ++ y := by
  intro h
  have hd : ("/mocha/src/" : String).data ++ x.data
      = ("/mocha/bin/" : String).data ++ y.data := by
    have h2 := congrArg String.data h
    rw [String.data_append, String.data_append] at h2
    exact h2
  have hlen : (("/mocha/src/" : String).data).length
      = (("/mocha/bin/" : String).data).length := by decide
  have h3 := (List.append_inj hd hlen).1
  exact absurd h3 (by decide)

lemma targetPath_ne_binPath (p : Package) (n dn : String) :
    p.targetDir ++ "/" ++ n ≠ binaryDir ++ "/" ++ dn := by
  have h1 : p.targetDir ++ "/" ++ n =
      "/mocha/src/" ++ (p.name ++ ("/target/x86_64-unknown-linux-musl/release/" ++ n)) := by
    simp [Package.targetDir, Package.sourceDir, String.append_assoc]
  have h2 : binaryDir ++ "/" ++ dn = "/mocha/bin/" ++ dn := by
    show ("/mocha/bin" ++ "/") ++ dn = "/mocha/bin/" ++ dn
    rw [show ("/mocha/bin" : String) ++ "/" = "/mocha/bin/" from rfl]
  rw [h1, h2]
  exact mochaSrc_ne_mochaBin _ _

lemma dropPreChars_append (pre rest : List Char) :
    dropPreChars pre (pre ++ rest) = some rest := by
  induction pre with
  | nil => rfl
  | cons c cs ih => simp [dropPreChars, ih]

lemma dropPre_append (pre a : String) : dropPre pre (pre ++ a) = some a := by
  unfold dropPre
  rw [String.data_append, dropPreChars_append]
  simp [strMk_data]

lemma dropPre_lib_not_bin (a : String) : dropPre "bin " ("lib " ++ a) = none := by
  unfold dropPre
  rw [show (("lib " : String) ++ a).data = 'l' :: 'i' :: 'b' :: ' ' :: a.data from by
    rw [String.data_append]; rfl]
  rfl

lemma dropPre_bin_not_lib (a : String) : dropPre "lib " ("bin " ++ a) = none := by
  unfold dropPre
  rw [show (("bin " : String) ++ a).data = 'b' :: 'i' :: 'n' :: ' ' :: a.data from by
    rw [String.data_append]; rfl]
  rfl

lemma foldl_chunk (es : List (String × List String)) : ∀ acc : String,
    es.foldl (fun acc e => acc ++ chunkOf e) acc = acc ++ strConcat (es.map chunkOf) := by
  induction es with
  | nil => intro acc; simp [strConcat, String.append_empty]
  | cons e rest ih =>
    intro acc
    simp only [List.foldl, List.map, strConcat]
    rw [ih, String.append_assoc]

lemma installArtifact1_bin_events (bd td : String) (fs : Fs) (nm : String) (rn : Option String) :
    (installArtifact1 bd td fs (Artifact.bin nm rn)).1
      = [Event.removeFile (bd ++ "/" ++ rn.getD nm),
         Event.copyFile (td ++ "/" ++ nm) (bd ++ "/" ++ rn.getD nm)] := by
  unfold installArtifact1
  dsimp only
  split <;> rfl

lemma installArtifact1_sym_events (bd td : String) (fs : Fs) (nm pt : String) :
    (installArtifact1 bd td fs (Artifact.sym nm pt)).1
      = [Event.removeFile (bd ++ "/" ++ nm), Event.symlink pt (bd ++ "/" ++ nm)] := by
  unfold installArtifact1
  dsimp only
  split <;> rfl

lemma installArtifact1_fileOps (bd td : String) (fs : Fs) (a : Artifact) :
    ∀ e ∈ (installArtifact1 bd td fs a).1, e.isFileOp = true := by
  intro e he
  cases a with
  | bin nm rn =>
    rw [installArtifact1_bin_events] at he
    simp only [List.mem_cons, List.not_mem_nil, or_false] at he
    rcases he with he | he <;> subst he <;> rfl
  | sym nm pt =>
    rw [installArtifact1_sym_events] at he
    simp only [List.mem_cons, List.not_mem_nil, or_false] at he
    rcases he with he | he <;> subst he <;> rfl

lemma installArtifacts_fileOps (bd td : String) :
    ∀ (as : List Artifact) (fs : Fs), ∀ e ∈ (installArtifacts bd td fs as).1, e.isFileOp = true := by
  intro as
  induction as with
  | nil => intro fs e he; simp [installArtifacts] at he
  | cons a rest ih =>
    intro fs e he
    unfold installArtifacts at he
    dsimp only at he
    split at he
    · exact installArtifact1_fileOps bd td fs a e he
    · rename_i fs1 hstep
      simp only [List.mem_append] at he
      rcases he with he | he
      · exact installArtifact1_fileOps bd td fs a e he
      · exact ih fs1 e he

lemma filter_installArtifacts (bd td : String) (fs : Fs) (as : List Artifact)
    (f : Event → Bool) (hf : ∀ e : Event, e.isFileOp = true → f e = false) :
    ((installArtifacts bd td fs as).1).filter f = [] := by
  refine List.filter_eq_nil_iff.mpr ?_
  intro e he
  have h := installArtifacts_fileOps bd td as fs e he
  simp [hf e h]

lemma instAfterSync_filter (p : Package) (w : World) (evs : List Event) (f : Event → Bool)
    (hw : f (buildWriteEvent p) = false) (hz : f (zigRunEvent p) = false)
    (hc : f (cargoRunEvent p) = false)
    (ha : ((installArtifacts binaryDir p.targetDir w.fs p.serialized.artifacts).1).filter f = []) :
    ((instAfterSync p w evs).1).filter f = evs.filter f := by
  unfold instAfterSync
  by_cases h0 : procOk w 0 <;> by_cases h3 : w.writeOk <;>
    by_cases h1 : procOk w 1 <;> by_cases h2 : procOk w 2 <;>
    simp [h0, h1, h2, h3, List.filter_append, hw, hz, hc, ha]

lemma install_decomp (p : Package) (w : World)
    (h1 : w.sourceDirExists = true ∨ w.createDirOk = true)
    (h2 : procOk w 0 = true) (h3 : w.writeOk = true) (h4 : procOk w 1 = true) :
    p.install w =
      (syncEvents p w ++ [buildWriteEvent p, zigRunEvent p, cargoRunEvent p] ++
        (if procOk w 2 then (installArtifacts binaryDir p.targetDir w.fs p.serialized.artifacts).1
         else []),
       if procOk w 2 then (installArtifacts binaryDir p.targetDir w.fs p.serialized.artifacts).2
       else Except.error IoErr.spawnWait) := by
  cases hs : w.sourceDirExists with
  | true =>
    by_cases h5 : procOk w 2 <;>
      simp [Package.install, instAfterSync, syncEvents, hs, h2, h3, h4, h5, List.append_assoc]
  | false =>
    have hc : w.createDirOk = true := by
      rcases h1 with h | h
      · rw [hs] at h; cases h
      · exact h
    by_cases h5 : procOk w 2 <;>
      simp [Package.install, instAfterSync, syncEvents, hs, hc, h2, h3, h4, h5, List.append_assoc]

lemma overrideCodes_isSome (os : List (Option Int)) :
    ∀ (cs : List Int) (i : Nat),
      (((overrideCodes os cs).getD i none)).isSome = ((os.getD i none)).isSome := by
  induction os with
  | nil =>
    intro cs i
    cases cs <;> rfl
  | cons o os ih =>
    intro cs i
    cases cs with
    | nil => rfl
    | cons c cs =>
      cases i with
      | zero =>
        cases o <;> rfl
      | succ j =>
        simp only [overrideCodes, List.getD_cons_succ]
        exact ih cs j

lemma procOk_overrideCodes (w : World) (cs : List Int) (i : Nat) :
    procOk { w with procs := overrideCodes w.procs cs } i = procOk w i := by
  unfold procOk
  exact overrideCodes_isSome w.procs cs i

/-- Does an event invoke the source-control tool? -/
def isGixRun : Event → Bool
  | Event.run t _ _ => t == "gix"
  | _ => false

def isCreateDirEvent : Event → Bool
  | Event.createDir _ => true
  | _ => false

def isRunEvent : Event → Bool
  | Event.run _ _ _ => true
  | _ => false

lemma isGixRun_of_fileOp : ∀ e : Event, e.isFileOp = true → isGixRun e = false := by
  intro e he
  cases e <;> simp_all [Event.isFileOp, isGixRun]

lemma isCreateDirEvent_of_fileOp : ∀ e : Event, e.isFileOp = true → isCreateDirEvent e = false := by
  intro e he
  cases e <;> simp_all [Event.isFileOp, isCreateDirEvent]

lemma isRunEvent_of_fileOp : ∀ e : Event, e.isFileOp = true → isRunEvent e = false := by
  intro e he
  cases e <;> simp_all [Event.isFileOp, isRunEvent]

/-! ## The claims -/

/-- Claim C2: source synchronization branches on the existence of
`root/src/<name>`.  If the directory exists, the only source-control
invocation of the whole install is `gix fetch --depth 1` (never a clone)
and no directory is created; otherwise the directory is created and the
only source-control invocation is `gix clone --depth 1 --no-tags <source> .`
(when the creation itself fails, install aborts before spawning anything).
Both invocations run with the source directory as working directory.
Since the branch depends only on the `exists()` answer, a second install
against an already-existing checkout takes the fetch path. -/
theorem spec_c2_sync_branches (p : Package) (w : World) :
    ((p.install w).1).filter isGixRun =
      (if w.sourceDirExists then [Event.run "gix" ["fetch", "--depth", "1"] p.sourceDir]
       else if w.createDirOk then
         [Event.run "gix" ["clone", "--depth", "1", "--no-tags", p.serialized.source, "."]
           p.sourceDir]
       else [])
  ∧ ((p.install w).1).filter isCreateDirEvent =
      (if w.sourceDirExists then [] else [Event.createDir p.sourceDir]) := by
  have hga := filter_installArtifacts binaryDir p.targetDir w.fs p.serialized.artifacts
    isGixRun isGixRun_of_fileOp
  have hcd := filter_installArtifacts binaryDir p.targetDir w.fs p.serialized.artifacts
    isCreateDirEvent isCreateDirEvent_of_fileOp
  constructor
  · by_cases hs : w.sourceDirExists
    · have hi : p.install w = instAfterSync p w [fetchEvent p] := by
        simp [Package.install, hs]
      rw [hi, instAfterSync_filter p w [fetchEvent p] isGixRun rfl rfl rfl hga]
      simp [hs, fetchEvent, isGixRun, List.filter]
    · by_cases hc : w.createDirOk
      · have hi : p.install w = instAfterSync p w [Event.createDir p.sourceDir, cloneEvent p] := by
          simp [Package.install, hs, hc]
        rw [hi, instAfterSync_filter p w _ isGixRun rfl rfl rfl hga]
        simp [hs, hc, cloneEvent, isGixRun, List.filter]
      · have hi : p.install w = ([Event.createDir p.sourceDir], Except.error IoErr.createDirFail) := by
          simp [Package.install, hs, hc]
        rw [hi]
        simp [hs, hc, isGixRun, List.filter]
  · by_cases hs : w.sourceDirExists
    · have hi : p.install w = instAfterSync p w [fetchEvent p] := by
        simp [Package.install, hs]
      rw [hi, instAfterSync_filter p w [fetchEvent p] isCreateDirEvent rfl rfl rfl hcd]
      simp [hs, fetchEvent, isCreateDirEvent, List.filter]
    · by_cases hc : w.createDirOk
      · have hi : p.install w = instAfterSync p w [Event.createDir p.sourceDir, cloneEvent p] := by
          simp [Package.install, hs, hc]
        rw [hi, instAfterSync_filter p w _ isCreateDirEvent rfl rfl rfl hcd]
        simp [hs, hc, cloneEvent, isCreateDirEvent, List.filter]
      · have hi : p.install w = ([Event.createDir p.sourceDir], Except.error IoErr.createDirFail) := by
          simp [Package.install, hs, hc]
        rw [hi]
        simp [hs, hc, isCreateDirEvent, List.filter]

/-- Claim C3: the generated build configuration processes `beta_artifacts`
in input order; a `"lib "`-labelled entry contributes the static-library
block (libc-linked, named from the remainder, quoted comma-joined sources,
include paths `lib` and `lib/common`, registered for installation); a
`"bin "`-labelled entry contributes the analogous executable block plus
the `zig-out/lib/libzstd.a` object file; a label with neither prefix
contributes nothing, with no error. -/
theorem spec_c3_buildscript :
    (∀ es : List (String × List String),
       buildZig es = zigHeader ++ strConcat (es.map chunkOf) ++ "\x7d\n")
  ∧ (∀ (a : String) (ss : List String),
       chunkOf ("lib " ++ a, ss) = libChunk a (quoteJoin ss))
  ∧ (∀ (a : String) (ss : List String),
       chunkOf ("bin " ++ a, ss) = binChunk a (quoteJoin ss))
  ∧ (∀ (lab : String) (ss : List String),
       dropPre "lib " lab = none → dropPre "bin " lab = none → chunkOf (lab, ss) = "")
  ∧ (∀ a q : String,
       ("    lib" ++ a ++ ".addIncludePath(\"lib\");") ∈ libChunkLines a q
       ∧ ("    lib" ++ a ++ ".addIncludePath(\"lib/common\");") ∈ libChunkLines a q
       ∧ ("    b.installArtifact(lib" ++ a ++ ");") ∈ libChunkLines a q)
  ∧ (∀ a q : String,
       ("    " ++ a ++ ".addObjectFile(\"zig-out/lib/libzstd.a\");") ∈ binChunkLines a q
       ∧ ("    b.installArtifact(" ++ a ++ ");") ∈ binChunkLines a q) := by
  refine ⟨?_, ?_, ?_, ?_, ?_, ?_⟩
  · intro es
    unfold buildZig
    rw [foldl_chunk]
  · intro a ss
    simp [chunkOf, dropPre_append, dropPre_lib_not_bin, String.append_empty]
  · intro a ss
    simp [chunkOf, dropPre_append, dropPre_bin_not_lib, String.append_empty]
  · intro lab ss h1 h2
    simp [chunkOf, h1, h2]
  · intro a q
    refine ⟨?_, ?_, ?_⟩ <;> simp [libChunkLines]
  · intro a q
    refine ⟨?_, ?_⟩ <;> simp [binChunkLines]

/-- Witness for C3: a label with neither prefix (`"docs "`-less plain
label) contributes no target text. -/
theorem spec_c3_w : chunkOf ("docs", ["x.c"]) = "" :=
  spec_c3_buildscript.2.2.2.1 "docs" ["x.c"] rfl rfl

/-- Claim C6: a `Sym{name, points_to}` artifact best-effort removes
`root/bin/<name>` and creates a symlink there whose stored target text is
exactly the literal `points_to` — for every `points_to` and every
filesystem, with no validation of the target. -/
theorem spec_c6_symlink (p : Package) (fs : Fs) (nm pt : String) :
    installArtifact1 binaryDir p.targetDir fs (Artifact.sym nm pt) =
      ([Event.removeFile (binaryDir ++ "/" ++ nm), Event.symlink pt (binaryDir ++ "/" ++ nm)],
       Except.ok (fsInsert (fsErase fs (binaryDir ++ "/" ++ nm)) (binaryDir ++ "/" ++ nm)
         (Entry.symlinkTo pt)))
  ∧ fsLookup (fsInsert (fsErase fs (binaryDir ++ "/" ++ nm)) (binaryDir ++ "/" ++ nm)
        (Entry.symlinkTo pt)) (binaryDir ++ "/" ++ nm)
      = some (Entry.symlinkTo pt) := by
  constructor
  · unfold installArtifact1
    dsimp only
    rw [fsLookup_fsErase_self]
    rfl
  · exact fsLookup_fsInsert_self _ _ _

/-- Claim C9: manifests with absent `features`/`beta_artifacts` load with
those fields empty, and all declared fields round-trip unchanged into the
loaded record — both at the level of the derived deserializer and through
`Package::from_path`. -/
theorem spec_c9_loader_defaults (s : String) (dep : List String) (f : Option (List String))
    (arts : List Artifact) (b : Option (List (String × List String))) :
    deserializeSerialized ⟨some s, some dep, f, some arts, b⟩
        = Except.ok ⟨s, dep, f.getD [], arts, b.getD []⟩
  ∧ deserializeSerialized ⟨some s, some dep, none, some arts, none⟩
        = Except.ok ⟨s, dep, [], arts, []⟩
  ∧ ∀ (path nm content : String),
      fileStemOpt path = some nm →
        Package.from_path path ⟨some content, some ⟨some s, some dep, f, some arts, b⟩⟩
          = LoadOutcome.ok ⟨nm, ⟨s, dep, f.getD [], arts, b.getD []⟩⟩ := by
  refine ⟨rfl, rfl, ?_⟩
  intro path nm content h
  unfold Package.from_path
  rw [h]
  rfl

/-- Witness for C9: a manifest with `features` and `beta_artifacts`
omitted loads with both fields empty and the declared fields intact. -/
theorem spec_c9_w :
    Package.from_path "/mocha/pkgs/ripgrep.yaml"
        ⟨some "doc", some ⟨some "https://example/repo", some [], none, some [], none⟩⟩
      = LoadOutcome.ok ⟨"ripgrep", ⟨"https://example/repo", [], [], [], []⟩⟩ :=
  (spec_c9_loader_defaults "https://example/repo" [] none [] none).2.2
    "/mocha/pkgs/ripgrep.yaml" "ripgrep" "doc" rfl

/-- Claim C1: artifact installation is fail-fast.  If a prefix of the
artifact list installs successfully and the next artifact's copy/symlink
step raises an I/O error, the whole loop stops there: the artifacts after
it contribute no events (they are never attempted) and the step's error is
the loop's result; under a successful sync and both builds, that error is
the error of the whole `install` operation.  Within a step, the
best-effort removal is modelled as never failing (its result is bound to
`_` in the code). -/
theorem spec_c1_failfast :
    (∀ (bd td : String) (pre : List Artifact) (fs : Fs) (a : Artifact) (post : List Artifact)
       (evs : List Event) (fs1 : Fs) (evsa : List Event) (e : IoErr),
       installArtifacts bd td fs pre = (evs, Except.ok fs1) →
       installArtifact1 bd td fs1 a = (evsa, Except.error e) →
       installArtifacts bd td fs (pre ++ a :: post) = (evs ++ evsa, Except.error e))
  ∧ (∀ (p : Package) (w : World) (aevs : List Event) (e : IoErr),
       w.sourceDirExists = true → procOk w 0 = true → w.writeOk = true →
       procOk w 1 = true → procOk w 2 = true →
       installArtifacts binaryDir p.targetDir w.fs p.serialized.artifacts
         = (aevs, Except.error e) →
       (p.install w).2 = Except.error e) := by
  constructor
  · intro bd td pre
    induction pre with
    | nil =>
      intro fs a post evs fs1 evsa e hpre ha
      unfold installArtifacts at hpre
      have he := congrArg Prod.fst hpre
      have hf := congrArg Prod.snd hpre
      dsimp only at he hf
      have hfs : fs = fs1 := by
        simpa using hf
      subst hfs
      subst he
      have hstep : installArtifacts bd td fs (a :: post) = (evsa, Except.error e) := by
        unfold installArtifacts
        dsimp only
        rw [ha]
      simpa using hstep
    | cons b pre ih =>
      intro fs a post evs fs1 evsa e hpre ha
      unfold installArtifacts at hpre
      dsimp only at hpre
      rcases hb : installArtifact1 bd td fs b with ⟨evb, rb⟩
      rw [hb] at hpre
      cases rb with
      | error eb =>
        dsimp only at hpre
        have hf := congrArg Prod.snd hpre
        simp at hf
      | ok fsb =>
        dsimp only at hpre
        rcases hr : installArtifacts bd td fsb pre with ⟨evr, rr⟩
        rw [hr] at hpre
        have he := congrArg Prod.fst hpre
        have hf := congrArg Prod.snd hpre
        dsimp only at he hf
        have hrec := ih fsb a post evr fs1 evsa e (by rw [hr, hf]) ha
        show installArtifacts bd td fs (b :: (pre ++ a :: post)) = (evs ++ evsa, Except.error e)
        unfold installArtifacts
        dsimp only
        rw [hb]
        dsimp only
        rw [hrec]
        rw [← he, List.append_assoc]
  · intro p w aevs e hs h0 h3 h4 h2 hA
    have hd := install_decomp p w (Or.inl hs) h0 h3 h4
    rw [hd]
    dsimp only
    rw [h2]
    simp [hA]

/-- Witness for C1: three `Bin` artifacts where the second one's source
file is missing — the loop stops after the second step's events, the
third artifact is never attempted, and the copy error propagates. -/
theorem spec_c1_w :
    installArtifacts "/b" "/t" [("/t/one", Entry.file "O"), ("/t/three", Entry.file "T")]
        ([Artifact.bin "one" none] ++ Artifact.bin "two" none :: [Artifact.bin "three" none])
      = ([Event.removeFile "/b/one", Event.copyFile "/t/one" "/b/one"] ++
          [Event.removeFile "/b/two", Event.copyFile "/t/two" "/b/two"],
         Except.error IoErr.notFound) :=
  spec_c1_failfast.1 "/b" "/t" [Artifact.bin "one" none]
    [("/t/one", Entry.file "O"), ("/t/three", Entry.file "T")]
    (Artifact.bin "two" none) [Artifact.bin "three" none]
    [Event.removeFile "/b/one", Event.copyFile "/t/one" "/b/one"]
    [("/b/one", Entry.file "O"), ("/t/one", Entry.file "O"), ("/t/three", Entry.file "T")]
    [Event.removeFile "/b/two", Event.copyFile "/t/two" "/b/two"]
    IoErr.notFound rfl rfl

/-- Claim C4: whenever the pipeline reaches the build phase, the process
invocations of the whole install are exactly the sync invocation, then
`zig build`, then the `cargo` invocation — so the primary build runs after
the secondary one — and the cargo invocation carries the pinned channel
`+nightly`, `--features=<comma-joined features>`, `--no-default-features`,
`--release`, the musl target, and the source directory as cwd.  The two
targets spell the triple differently (`x86_64-unknown-linux-musl` vs
`x86_64-linux-musl`) but agree up to the `unknown` vendor field. -/
theorem spec_c4_primary_build (p : Package) (w : World)
    (h1 : w.sourceDirExists = true ∨ w.createDirOk = true)
    (h2 : procOk w 0 = true) (h3 : w.writeOk = true) (h4 : procOk w 1 = true) :
    ((p.install w).1).filter isRunEvent =
      [if w.sourceDirExists then fetchEvent p else cloneEvent p,
       zigRunEvent p, cargoRunEvent p]
  ∧ cargoRunEvent p = Event.run "cargo"
      ["+nightly", "zigbuild",
       "--features=" ++ String.intercalate "," p.serialized.features,
       "--no-default-features", "--target=x86_64-unknown-linux-musl", "--release"]
      p.sourceDir
  ∧ zigRunEvent p = Event.run "zig"
      ["build", "-Doptimize=ReleaseFast", "-Dtarget=x86_64-linux-musl"] p.sourceDir
  ∧ (splitChar '-' "x86_64-unknown-linux-musl").filter (fun f => f != "unknown")
      = splitChar '-' "x86_64-linux-musl" := by
  refine ⟨?_, rfl, rfl, by decide⟩
  have hra := filter_installArtifacts binaryDir p.targetDir w.fs p.serialized.artifacts
    isRunEvent isRunEvent_of_fileOp
  rw [install_decomp p w h1 h2 h3 h4]
  dsimp only
  by_cases h5 : procOk w 2 <;> by_cases hs : w.sourceDirExists <;>
    simp [h5, hs, syncEvents, List.filter_append, hra, fetchEvent, cloneEvent,
      buildWriteEvent, zigRunEvent, cargoRunEvent, isRunEvent, List.filter]

/-- A concrete package fixture for the witnesses. -/
def p0 : Package :=
  ⟨"demo", ⟨"https://example/repo", [], ["x", "y"], [], []⟩⟩

/-- A concrete environment fixture: existing checkout, all effects
succeed, all three tools exit 0, empty filesystem. -/
def w0 : World :=
  ⟨true, true, [some 0, some 0, some 0], true, []⟩

/-- Witness for C4 at the concrete fixtures. -/
theorem spec_c4_w :
    ((p0.install w0).1).filter isRunEvent =
      [if w0.sourceDirExists then fetchEvent p0 else cloneEvent p0,
       zigRunEvent p0, cargoRunEvent p0]
  ∧ cargoRunEvent p0 = Event.run "cargo"
      ["+nightly", "zigbuild",
       "--features=" ++ String.intercalate "," p0.serialized.features,
       "--no-default-features", "--target=x86_64-unknown-linux-musl", "--release"]
      p0.sourceDir
  ∧ zigRunEvent p0 = Event.run "zig"
      ["build", "-Doptimize=ReleaseFast", "-Dtarget=x86_64-linux-musl"] p0.sourceDir
  ∧ (splitChar '-' "x86_64-unknown-linux-musl").filter (fun f => f != "unknown")
      = splitChar '-' "x86_64-linux-musl" :=
  spec_c4_primary_build p0 w0 (Or.inl rfl) rfl rfl rfl

/-- Claim C5: a `Bin{name, rename_to}` artifact copies
`root/src/<package>/target/x86_64-unknown-linux-musl/release/<name>` to
`root/bin/<rename_to if present, else name>` after a best-effort removal
of the destination; the destination then holds the source's content and
the source entry itself is untouched. -/
theorem spec_c5_bin_install (p : Package) (fs : Fs) (nm : String) (rn : Option String)
    (c : String)
    (h : fsLookup fs (p.targetDir ++ "/" ++ nm) = some (Entry.file c)) :
    installArtifact1 binaryDir p.targetDir fs (Artifact.bin nm rn) =
      ([Event.removeFile (binaryDir ++ "/" ++ rn.getD nm),
        Event.copyFile (p.targetDir ++ "/" ++ nm) (binaryDir ++ "/" ++ rn.getD nm)],
       Except.ok (fsInsert (fsErase fs (binaryDir ++ "/" ++ rn.getD nm))
         (binaryDir ++ "/" ++ rn.getD nm) (Entry.file c)))
  ∧ fsLookup (fsInsert (fsErase fs (binaryDir ++ "/" ++ rn.getD nm))
        (binaryDir ++ "/" ++ rn.getD nm) (Entry.file c)) (binaryDir ++ "/" ++ rn.getD nm)
      = some (Entry.file c)
  ∧ fsLookup (fsInsert (fsErase fs (binaryDir ++ "/" ++ rn.getD nm))
        (binaryDir ++ "/" ++ rn.getD nm) (Entry.file c)) (p.targetDir ++ "/" ++ nm)
      = some (Entry.file c) := by
  have hne := targetPath_ne_binPath p nm (rn.getD nm)
  refine ⟨?_, fsLookup_fsInsert_self _ _ _, ?_⟩
  · unfold installArtifact1
    dsimp only
    rw [fsLookup_fsErase_ne fs (binaryDir ++ "/" ++ rn.getD nm) (p.targetDir ++ "/" ++ nm) hne,
      h]
  · rw [fsLookup_fsInsert_ne _ _ _ _ hne,
      fsLookup_fsErase_ne fs (binaryDir ++ "/" ++ rn.getD nm) (p.targetDir ++ "/" ++ nm) hne,
      h]

/-- Witness for C5: `Bin{name:"foo", rename_to:Some("bar")}` installs the
build output `foo` as `bar` under the binary directory; the source entry
keeps its content. -/
theorem spec_c5_w :
    installArtifact1 binaryDir p0.targetDir
        [("/mocha/src/demo/target/x86_64-unknown-linux-musl/release/foo", Entry.file "ELF")]
        (Artifact.bin "foo" (some "bar")) =
      ([Event.removeFile (binaryDir ++ "/" ++ (some "bar").getD "foo"),
        Event.copyFile (p0.targetDir ++ "/" ++ "foo") (binaryDir ++ "/" ++ (some "bar").getD "foo")],
       Except.ok (fsInsert (fsErase
           [("/mocha/src/demo/target/x86_64-unknown-linux-musl/release/foo", Entry.file "ELF")]
           (binaryDir ++ "/" ++ (some "bar").getD "foo"))
         (binaryDir ++ "/" ++ (some "bar").getD "foo") (Entry.file "ELF")))
  ∧ fsLookup (fsInsert (fsErase
          [("/mocha/src/demo/target/x86_64-unknown-linux-musl/release/foo", Entry.file "ELF")]
          (binaryDir ++ "/" ++ (some "bar").getD "foo"))
        (binaryDir ++ "/" ++ (some "bar").getD "foo") (Entry.file "ELF"))
      (binaryDir ++ "/" ++ (some "bar").getD "foo")
      = some (Entry.file "ELF")
  ∧ fsLookup (fsInsert (fsErase
          [("/mocha/src/demo/target/x86_64-unknown-linux-musl/release/foo", Entry.file "ELF")]
          (binaryDir ++ "/" ++ (some "bar").getD "foo"))
        (binaryDir ++ "/" ++ (some "bar").getD "foo") (Entry.file "ELF"))
      (p0.targetDir ++ "/" ++ "foo")
      = some (Entry.file "ELF") :=
  spec_c5_bin_install p0
    [("/mocha/src/demo/target/x86_64-unknown-linux-musl/release/foo", Entry.file "ELF")]
    "foo" (some "bar") "ELF" rfl

/-- Claim C7: the exit status of the three external invocations is never
inspected.  Replacing every successful exit code by any other codes leaves
the whole install — events and result — unchanged; and with all three
spawns succeeding (whatever their exit codes, e.g. nonzero), the pipeline
proceeds to artifact installation, whose outcome is the install's outcome.
The `IoErr` taxonomy has no process-exit variant to raise. -/
theorem spec_c7_exit_status_ignored :
    (∀ (p : Package) (w : World) (cs : List Int),
       p.install { w with procs := overrideCodes w.procs cs } = p.install w)
  ∧ (∀ (p : Package) (w : World) (c0 c1 c2 : Int),
       w.procs = [some c0, some c1, some c2] → w.writeOk = true →
       w.sourceDirExists = true →
       (p.install w).2
         = (installArtifacts binaryDir p.targetDir w.fs p.serialized.artifacts).2) := by
  constructor
  · intro p w cs
    have e0 := procOk_overrideCodes w cs 0
    have e1 := procOk_overrideCodes w cs 1
    have e2 := procOk_overrideCodes w cs 2
    simp only [Package.install, instAfterSync, e0, e1, e2]
  · intro p w c0 c1 c2 hp hw hs
    have h0 : procOk w 0 = true := by simp [procOk, hp]
    have h1 : procOk w 1 = true := by simp [procOk, hp]
    have h2 : procOk w 2 = true := by simp [procOk, hp]
    rw [install_decomp p w (Or.inl hs) h0 hw h1]
    simp [h2]

/-- Witness for C7: with nonzero exit codes for all three tools, install
still proceeds to the artifact loop. -/
theorem spec_c7_w :
    ((p0.install ⟨true, true, [some 101, some 102, some 103], true, []⟩).2)
      = (installArtifacts binaryDir p0.targetDir
          (World.fs ⟨true, true, [some 101, some 102, some 103], true, []⟩)
          p0.serialized.artifacts).2 :=
  spec_c7_exit_status_ignored.2 p0 ⟨true, true, [some 101, some 102, some 103], true, []⟩
    101 102 103 rfl rfl rfl

/-- Claim C10: whenever the sync phase succeeds, install writes
`build.zig` (with the generated text) into the source directory and
invokes `zig build` and then the `cargo` build, for every package — in
particular when `beta_artifacts` is empty, in which case the generated
text is just the fixed preamble and the closing brace. -/
theorem spec_c10_always_build (p : Package) (w : World)
    (h1 : w.sourceDirExists = true ∨ w.createDirOk = true)
    (h2 : procOk w 0 = true) (h3 : w.writeOk = true) (h4 : procOk w 1 = true) :
    (p.install w).1 =
      syncEvents p w ++
        [Event.writeFile (p.sourceDir ++ "/build.zig") (buildZig p.serialized.beta_artifacts),
         zigRunEvent p, cargoRunEvent p] ++
        (if procOk w 2 then (installArtifacts binaryDir p.targetDir w.fs p.serialized.artifacts).1
         else [])
  ∧ buildZig [] = zigHeader ++ "\x7d\n" := by
  constructor
  · rw [install_decomp p w h1 h2 h3 h4]
    rfl
  · rfl

/-- Witness for C10 at the concrete fixtures (whose `beta_artifacts` list
is empty). -/
theorem spec_c10_w :
    (p0.install w0).1 =
      syncEvents p0 w0 ++
        [Event.writeFile (p0.sourceDir ++ "/build.zig") (buildZig p0.serialized.beta_artifacts),
         zigRunEvent p0, cargoRunEvent p0] ++
        (if procOk w0 2 then
          (installArtifacts binaryDir p0.targetDir w0.fs p0.serialized.artifacts).1
         else [])
  ∧ buildZig [] = zigHeader ++ "\x7d\n" :=
  spec_c10_always_build p0 w0 (Or.inl rfl) rfl rfl rfl

/-- Counterexample to claim C8 as stated: on a read failure (`readResult`
is `none`), `from_path` panics (`fs::read_to_string(path).unwrap()`); the
outcome is not an error value of any kind. -/
theorem spec_c8_cex :
    Package.from_path "/mocha/pkgs/foo.yaml" ⟨none, none⟩ = LoadOutcome.panicked
  ∧ isErrOutcome (Package.from_path "/mocha/pkgs/foo.yaml" ⟨none, none⟩) = false :=
  ⟨rfl, rfl⟩

/-- Amended C8: for every manifest path (with a well-defined file stem)
whose file cannot be read, the loader panics — the read result is
unwrapped — instead of surfacing the failure to its caller as an error
value; only deserialization failures are surfaced, as `SpecParseError`. -/
theorem spec_c8_read_failure_panics (path : String) (w : LoadWorld) (nm : String)
    (hstem : fileStemOpt path = some nm) (hread : w.readResult = none) :
    Package.from_path path w = LoadOutcome.panicked := by
  unfold Package.from_path
  rw [hstem, hread]

/-- Witness for the amended C8. -/
theorem spec_c8_w :
    Package.from_path "/mocha/pkgs/bar.yaml" ⟨none, some ⟨none, none, none, none, none⟩⟩
      = LoadOutcome.panicked :=
  spec_c8_read_failure_panics "/mocha/pkgs/bar.yaml" ⟨none, some ⟨none, none, none, none, none⟩⟩
    "bar" rfl rfl

end Mocha
